import Mathlib

/-!
Verification of the NRL-ML flattening and normalization pipeline.

A shallow embedding of the pure data-shaping core of the NRL-ML scraper:

* the text normalizer `clean_text` (`Scraper/convert_json_to_txt.py` and the
  identical copy `NRLScraper.clean_text` in `Scraper/scrape_basic_match_data.py`),
* the basic JSON-to-table flattener `convert_json_to_table`
  (`Scraper/convert_json_to_txt.py`),
* the three detailed flatteners of `get_detailed_nrl_data`
  (`Scraper/scrape_detailed_match_data.py`): per-team statistics, per-game
  metadata and the per-try fan-out,
* the finals-round relabeling of `NRLScraper.save_data`
  (`Scraper/scrape_basic_match_data.py`).

Python strings are modelled as `List Char` (code-point sequences) with a
`String` wrapper where convenient; Python dicts as association lists in
insertion order; a Python `for` loop appending to a list as a left fold over
that association list; code that can raise (plain `d[k]` indexing) returns
`Option`.
-/

namespace NRLML

/-! ## Text normalizer (`clean_text`)

The source, identical in both files:
```
text = re.sub(r'[^\x00-\x7F]+', '', text)      # remove non-ASCII characters
text = text.replace('\n', ' ').strip()
text = re.sub(r'     .*', '', text)            # five spaces
text = re.sub(r'Home of the.*', '', text)
```
After the second line the text holds no newline, so each of the last two
`re.sub` calls truncates the text at the leftmost occurrence of its literal
pattern (`.*` then consumes everything to the end of the string).
-/

/-- The characters Python's `str.strip()` removes.  `clean_text` only strips
after every character above `0x7F` has been removed, so the ASCII whitespace
code points (9-13, 28-31 and 32) are the ones that matter. -/
def isPySpace (c : Char) : Bool :=
  (9 ≤ c.toNat && c.toNat ≤ 13) || (28 ≤ c.toNat && c.toNat ≤ 32)

/-- Python `str.strip()`: drop whitespace from both ends. -/
def pyStrip (l : List Char) : List Char :=
  (((l.dropWhile isPySpace).reverse).dropWhile isPySpace).reverse

/-- Truncate a newline-free text at the leftmost occurrence of the literal
pattern `pat`: this is `re.sub(pat ++ ".*", "", text)` when `text` has no
newline (the regexes `'     .*'` and `'Home of the.*'` of the source are
applied after every newline has been replaced by a space). -/
def truncAtFirst (pat : List Char) : List Char → List Char
  | [] => []
  | c :: rest => if pat.isPrefixOf (c :: rest) then [] else c :: truncAtFirst pat rest

/-- The literal pattern of `re.sub(r'     .*', '', text)`: five spaces. -/
def fiveSpaces : List Char := [' ', ' ', ' ', ' ', ' ']

/-- The literal pattern of `re.sub(r'Home of the.*', '', text)`. -/
def homeOfThe : List Char := "Home of the".data

/-- `clean_text` over a list of code points, step for step as in the source. -/
def cleanTextL (l : List Char) : List Char :=
  let t1 := l.filter (fun c => c.toNat ≤ 127)
  let t2 := pyStrip (t1.map (fun c => if c = '\n' then ' ' else c))
  let t3 := truncAtFirst fiveSpaces t2
  truncAtFirst homeOfThe t3

/-- `clean_text` of both scraper files, on `String`. -/
def clean_text (s : String) : String := String.mk (cleanTextL s.data)

/-- Python `str.strip()` on `String`. -/
def py_strip (s : String) : String := String.mk (pyStrip s.data)

/-- Occurrence of `pat` as a contiguous segment of the text, mirroring a regex
search for the literal `pat`. -/
def containsSub (pat : List Char) : List Char → Bool
  | [] => pat.isEmpty
  | c :: rest => pat.isPrefixOf (c :: rest) || containsSub pat rest

lemma containsSub_iff (pat : List Char) :
    ∀ l, containsSub pat l = true ↔ ∃ a b, l = a ++ pat ++ b := by
  intro l
  induction l with
  | nil =>
    simp only [containsSub, List.isEmpty_iff]
    constructor
    · rintro rfl; exact ⟨[], [], rfl⟩
    · rintro ⟨a, b, h⟩
      rcases List.append_eq_nil.mp ((List.append_eq_nil).mp h.symm).1 with ⟨_, h2⟩
      exact h2
  | cons c rest ih =>
    simp only [containsSub, Bool.or_eq_true, List.isPrefixOf_iff_prefix, ih]
    constructor
    · rintro (⟨t, ht⟩ | ⟨a, b, rfl⟩)
      · exact ⟨[], t, by simpa using ht.symm⟩
      · exact ⟨c :: a, b, rfl⟩
    · rintro ⟨a, b, h⟩
      cases a with
      | nil =>
        left
        simp only [List.nil_append] at h
        exact ⟨b, h.symm⟩
      | cons x a2 =>
        right
        simp only [List.cons_append, List.cons.injEq] at h
        exact ⟨a2, b, h.2⟩

lemma truncAtFirst_append (pat : List Char) :
    ∀ l, ∃ t, truncAtFirst pat l ++ t = l := by
  intro l
  induction l with
  | nil => exact ⟨[], rfl⟩
  | cons c rest ih =>
    by_cases h : pat.isPrefixOf (c :: rest)
    · exact ⟨c :: rest, by simp [truncAtFirst, h]⟩
    · rcases ih with ⟨t, ht⟩
      exact ⟨t, by simp [truncAtFirst, h, ht]⟩

lemma truncAtFirst_eq_self {pat : List Char} {l : List Char}
    (h : containsSub pat l = false) : truncAtFirst pat l = l := by
  induction l with
  | nil => rfl
  | cons c rest ih =>
    simp only [containsSub, Bool.or_eq_false_iff] at h
    simp [truncAtFirst, h.1, ih h.2]

lemma not_containsSub_truncAtFirst {pat : List Char} (hpat : pat ≠ []) (l : List Char) :
    containsSub pat (truncAtFirst pat l) = false := by
  induction l with
  | nil => simpa [truncAtFirst, containsSub, List.isEmpty_iff] using hpat
  | cons c rest ih =>
    by_cases h : pat.isPrefixOf (c :: rest)
    · simpa [truncAtFirst, h, containsSub, List.isEmpty_iff] using hpat
    · simp only [truncAtFirst, h, if_false, containsSub, Bool.or_eq_false_iff]
      refine ⟨?_, ih⟩
      rcases truncAtFirst_append pat rest with ⟨t, ht⟩
      rw [Bool.eq_false_iff]
      intro hpre
      apply h
      rw [List.isPrefixOf_iff_prefix] at hpre ⊢
      exact hpre.trans ⟨t, by simp [ht]⟩

/-- If `pat` does not occur in `l`, it does not occur in any contiguous
segment of `l`. -/
lemma containsSub_of_seg {pat l m : List Char}
    (hm : ∃ s t, l = s ++ m ++ t) (h : containsSub pat l = false) :
    containsSub pat m = false := by
  rw [Bool.eq_false_iff] at h ⊢
  intro habs
  apply h
  rcases (containsSub_iff pat m).mp habs with ⟨a, b, rfl⟩
  rcases hm with ⟨s, t, rfl⟩
  exact (containsSub_iff pat _).mpr ⟨s ++ a, b ++ t, by simp⟩

lemma dropWhile_append (p : Char → Bool) (l : List Char) :
    ∃ s, s ++ l.dropWhile p = l := by
  induction l with
  | nil => exact ⟨[], rfl⟩
  | cons c rest ih =>
    by_cases h : p c
    · rcases ih with ⟨s, hs⟩
      exact ⟨c :: s, by simp [List.dropWhile, h, hs]⟩
    · exact ⟨[], by simp [List.dropWhile, h]⟩

/-- `pyStrip l` is a contiguous segment of `l`. -/
lemma pyStrip_seg (l : List Char) : ∃ s t, l = s ++ pyStrip l ++ t := by
  rcases dropWhile_append isPySpace l with ⟨s, hs⟩
  rcases dropWhile_append isPySpace (l.dropWhile isPySpace).reverse with ⟨u, hu⟩
  have hmid : l.dropWhile isPySpace = pyStrip l ++ u.reverse := by
    have h2 := congrArg List.reverse hu
    simpa [pyStrip, List.reverse_append] using h2.symm
  exact ⟨s, u.reverse, by rw [List.append_assoc, ← hmid, hs]⟩

lemma seg_length_le {l m : List Char} (hm : ∃ s t, l = s ++ m ++ t) :
    m.length ≤ l.length := by
  rcases hm with ⟨s, t, rfl⟩
  simp only [List.length_append]
  omega

lemma truncAtFirst_length_le (pat l : List Char) :
    (truncAtFirst pat l).length ≤ l.length := by
  rcases truncAtFirst_append pat l with ⟨t, ht⟩
  conv_rhs => rw [← ht]
  rw [List.length_append]
  exact Nat.le_add_right _ _

lemma mem_of_seg {c : Char} {l m : List Char} (hm : ∃ s t, l = s ++ m ++ t)
    (hc : c ∈ m) : c ∈ l := by
  rcases hm with ⟨s, t, rfl⟩
  simp [hc]

lemma mem_of_truncAtFirst {c : Char} {pat l : List Char}
    (hc : c ∈ truncAtFirst pat l) : c ∈ l := by
  rcases truncAtFirst_append pat l with ⟨t, ht⟩
  rw [← ht]
  simp [hc]

/-- Step 1 removed every character above `0x7F` and no later step introduces
one. -/
lemma cleanTextL_ascii {l : List Char} : ∀ c ∈ cleanTextL l, c.toNat ≤ 127 := by
  intro c hc
  have hc3 := mem_of_truncAtFirst hc
  have hc2 := mem_of_truncAtFirst hc3
  have hc1 := mem_of_seg (pyStrip_seg _) hc2
  rcases List.mem_map.mp hc1 with ⟨a, ha, rfl⟩
  have := List.of_mem_filter ha
  by_cases hn : a = '\n'
  · subst hn; simp
  · simpa [hn] using this

lemma cleanTextL_no_newline {l : List Char} : ∀ c ∈ cleanTextL l, c ≠ '\n' := by
  intro c hc
  have hc3 := mem_of_truncAtFirst hc
  have hc2 := mem_of_truncAtFirst hc3
  have hc1 := mem_of_seg (pyStrip_seg _) hc2
  rcases List.mem_map.mp hc1 with ⟨a, ha, rfl⟩
  by_cases hn : a = '\n'
  · subst hn; simp
  · simp [hn]

lemma cleanTextL_no_fiveSpaces (l : List Char) :
    containsSub fiveSpaces (cleanTextL l) = false := by
  have h3 : containsSub fiveSpaces
      (truncAtFirst fiveSpaces (pyStrip (((l.filter (fun c => c.toNat ≤ 127)).map
        (fun c => if c = '\n' then ' ' else c))))) = false :=
    not_containsSub_truncAtFirst (by simp [fiveSpaces]) _
  have hseg : ∃ s t, truncAtFirst fiveSpaces (pyStrip (((l.filter (fun c => c.toNat ≤ 127)).map
        (fun c => if c = '\n' then ' ' else c)))) = s ++ cleanTextL l ++ t := by
    rcases truncAtFirst_append homeOfThe
      (truncAtFirst fiveSpaces (pyStrip (((l.filter (fun c => c.toNat ≤ 127)).map
        (fun c => if c = '\n' then ' ' else c))))) with ⟨t, ht⟩
    exact ⟨[], t, by simpa [cleanTextL] using ht.symm⟩
  exact containsSub_of_seg hseg h3

lemma cleanTextL_no_homeOfThe (l : List Char) :
    containsSub homeOfThe (cleanTextL l) = false :=
  not_containsSub_truncAtFirst (by simp [homeOfThe]) _

/-- Applying `cleanTextL` to its own output only performs the `strip` step:
the output is ASCII and newline-free, and contains neither five consecutive
spaces nor `"Home of the"`, so the two truncations do nothing; but the
`"Home of the"` truncation may have left trailing whitespace that a second
`strip` removes. -/
lemma cleanTextL_cleanTextL (l : List Char) :
    cleanTextL (cleanTextL l) = pyStrip (cleanTextL l) := by
  have h1 : (cleanTextL l).filter (fun c => c.toNat ≤ 127) = cleanTextL l := by
    rw [List.filter_eq_self]
    intro a ha
    simpa using cleanTextL_ascii a ha
  have h2 : (cleanTextL l).map (fun c => if c = '\n' then ' ' else c) = cleanTextL l := by
    conv_rhs => rw [← List.map_id (cleanTextL l)]
    apply List.map_congr_left
    intro a ha
    simp [cleanTextL_no_newline a ha]
  have h3 : containsSub fiveSpaces (pyStrip (cleanTextL l)) = false :=
    containsSub_of_seg (pyStrip_seg _) (cleanTextL_no_fiveSpaces l)
  have h4 : containsSub homeOfThe (pyStrip (cleanTextL l)) = false :=
    containsSub_of_seg (pyStrip_seg _) (cleanTextL_no_homeOfThe l)
  show truncAtFirst homeOfThe (truncAtFirst fiveSpaces
    (pyStrip ((((cleanTextL l).filter (fun c => c.toNat ≤ 127)).map
      (fun c => if c = '\n' then ' ' else c)))) ) = _
  rw [h1, h2, truncAtFirst_eq_self h3, truncAtFirst_eq_self h4]

lemma cleanTextL_length_le (l : List Char) : (cleanTextL l).length ≤ l.length := by
  have h4 := truncAtFirst_length_le homeOfThe
    (truncAtFirst fiveSpaces (pyStrip ((l.filter (fun c => c.toNat ≤ 127)).map
      (fun c => if c = '\n' then ' ' else c))))
  have h3 := truncAtFirst_length_le fiveSpaces
    (pyStrip ((l.filter (fun c => c.toNat ≤ 127)).map (fun c => if c = '\n' then ' ' else c)))
  have h2 := seg_length_le (pyStrip_seg ((l.filter (fun c => c.toNat ≤ 127)).map
      (fun c => if c = '\n' then ' ' else c)))
  have h1 := List.length_filter_le (fun c => c.toNat ≤ 127) l
  simp only [List.length_map] at h2
  calc (cleanTextL l).length ≤ _ := h4
    _ ≤ _ := h3
    _ ≤ _ := h2
    _ ≤ _ := h1

/-- C2 (counterexample): `clean_text` is not idempotent.  Truncating at
`"Home of the"` leaves the trailing space of `"a Home of the b"`, and the
second application strips it. -/
theorem clean_text_not_idempotent :
    clean_text (clean_text "a Home of the b") ≠ clean_text "a Home of the b" := by
  decide

/-- C2 (amended): applying `clean_text` twice equals applying it once and then
stripping the leftover edge whitespace; in particular `clean_text` is
idempotent exactly on the strings whose cleaned form carries no trailing
whitespace. -/
theorem clean_text_twice_eq_strip (s : String) :
    clean_text (clean_text s) = py_strip (clean_text s) := by
  show String.mk (cleanTextL (cleanTextL s.data)) = String.mk (pyStrip (cleanTextL s.data))
  rw [cleanTextL_cleanTextL]

/-- C4 (counterexample): the second worked example of the spec fails — the
code keeps the space before `"Home of the"`, producing `"Suncorp Stadium "`
with a trailing space, not `"Suncorp Stadium"`. -/
theorem clean_text_second_example_fails :
    clean_text "Suncorp Stadium\nHome of the Broncos" ≠ "Suncorp Stadium" := by
  decide

/-- C4 (amended): the first worked example holds as stated; the second
evaluates to `"Suncorp Stadium "` with a trailing space. -/
theorem clean_text_worked_examples :
    clean_text "Stadium Name     Extra Info" = "Stadium Name" ∧
    clean_text "Suncorp Stadium\nHome of the Broncos" = "Suncorp Stadium " :=
  ⟨by decide, by decide⟩

/-- C8: every character of a cleaned string has code point below 128 — the
first step removes the non-ASCII characters and no later step reintroduces
one. -/
theorem clean_text_ascii (s : String) :
    (clean_text s).data.all (fun c => c.toNat < 128) = true := by
  rw [List.all_eq_true]
  intro c hc
  have h := cleanTextL_ascii (l := s.data) c hc
  simp only [decide_eq_true_eq]
  omega

/-- C9: the normalizer is total (a total Lean function by construction),
maps the empty string to the empty string, and never lengthens its input. -/
theorem clean_text_total :
    clean_text "" = "" ∧ ∀ s : String, (clean_text s).length ≤ s.length := by
  refine ⟨by decide, fun s => ?_⟩
  show (cleanTextL s.data).length ≤ s.data.length
  exact cleanTextL_length_le s.data

/-! ## Finals-round relabeling (`NRLScraper.save_data`)

The source builds `df_match_list = df[['Year', 'Round', 'Home', 'Away']]` and
then, per year of `df_match_list['Year'].unique()`,
```
top_4_rounds = sorted(year_data['Round'].unique(), reverse=True)[:4]
if len(top_4_rounds) >= 4:
    finals_map = {top_4_rounds[0]: 'grand-final', top_4_rounds[1]: 'finals-week-3',
                  top_4_rounds[2]: 'finals-week-2', top_4_rounds[3]: 'finals-week-1'}
    for old_round, new_round in finals_map.items():
        mask = (df_match_list['Year'] == year) & (df_match_list['Round'] == old_round)
        df_match_list.loc[mask, 'Round'] = new_round
```
Both `Year` and `Round` hold the *strings* `str(year)` and `str(round_num)`
(the keys of the scraped nested dicts), so Python's `sorted` compares them
lexicographically by code point. -/

/-- One row of the four-column match-list table. -/
structure MatchListRow where
  year : String
  round : String
  home : String
  away : String
deriving DecidableEq

/-- Python string comparison `a < b` on code-point sequences. -/
def goLex : List Char → List Char → Bool
  | [], [] => false
  | [], _ :: _ => true
  | _ :: _, [] => false
  | a :: as, b :: bs => if a < b then true else if b < a then false else goLex as bs

/-- Python `a < b` on strings. -/
def pyStrLt (a b : String) : Bool := goLex a.data b.data

/-- Insertion step of a stable descending sort under Python string order. -/
def insertDesc (x : String) : List String → List String
  | [] => [x]
  | y :: ys => if pyStrLt y x then x :: y :: ys else y :: insertDesc x ys

/-- Python `sorted(strings, reverse=True)`. -/
def sortDesc : List String → List String
  | [] => []
  | x :: xs => insertDesc x (sortDesc xs)

/-- pandas `unique()`: values in order of first appearance. -/
def dedupSeen {α : Type} [BEq α] (seen : List α) : List α → List α
  | [] => []
  | x :: xs => if seen.contains x then dedupSeen seen xs else x :: dedupSeen (x :: seen) xs

/-- pandas `unique()`, starting from nothing seen. -/
def uniqueOrder {α : Type} [BEq α] (l : List α) : List α := dedupSeen [] l

/-- `year_data['Round'].unique()` for one year of the table. -/
def roundsOfYear (rows : List MatchListRow) (y : String) : List String :=
  uniqueOrder ((rows.filter (fun r => r.year == y)).map (fun r => r.round))

/-- One masked assignment `df.loc[(Year == y) & (Round == old), 'Round'] = new`
acting on a single row. -/
def stepRow (y old new : String) (r : MatchListRow) : MatchListRow :=
  if r.year == y && r.round == old then { r with round := new } else r

/-- The same masked assignment over the whole table. -/
def applyMapStep (y old new : String) (rows : List MatchListRow) : List MatchListRow :=
  rows.map (stepRow y old new)

/-- The body of the per-year loop: sort the year's distinct round strings in
descending Python order, and when at least four exist, apply the four masked
assignments in the dict's insertion order. -/
def relabelForYear (rows : List MatchListRow) (y : String) : List MatchListRow :=
  match (sortDesc (roundsOfYear rows y)).take 4 with
  | [r0, r1, r2, r3] =>
    applyMapStep y r3 "finals-week-1" (applyMapStep y r2 "finals-week-2"
      (applyMapStep y r1 "finals-week-3" (applyMapStep y r0 "grand-final" rows)))
  | _ => rows

/-- The whole relabeling pass of `save_data`: iterate the years in order of
first appearance. -/
def relabelFinals (rows : List MatchListRow) : List MatchListRow :=
  (uniqueOrder (rows.map (fun r => r.year))).foldl relabelForYear rows

/-- A concrete match-list row with fixed team names. -/
def mkRow (y r : String) : MatchListRow := ⟨y, r, "H", "A"⟩

/-- The per-row effect of the four sequential masked assignments of one
qualifying year. -/
def finalsStep (y r0 r1 r2 r3 : String) (r : MatchListRow) : MatchListRow :=
  stepRow y r3 "finals-week-1" (stepRow y r2 "finals-week-2"
    (stepRow y r1 "finals-week-3" (stepRow y r0 "grand-final" r)))

lemma stepRow_year (y o n : String) (r : MatchListRow) : (stepRow y o n r).year = r.year := by
  unfold stepRow; split <;> rfl

lemma stepRow_home (y o n : String) (r : MatchListRow) : (stepRow y o n r).home = r.home := by
  unfold stepRow; split <;> rfl

lemma stepRow_away (y o n : String) (r : MatchListRow) : (stepRow y o n r).away = r.away := by
  unfold stepRow; split <;> rfl

lemma stepRow_of_ne_year {y : String} {r : MatchListRow} (h : r.year ≠ y) (o n : String) :
    stepRow y o n r = r := by
  simp [stepRow, h]

lemma stepRow_of_ne_round {o : String} {r : MatchListRow} (h : r.round ≠ o) (y n : String) :
    stepRow y o n r = r := by
  simp [stepRow, h]

lemma finalsStep_year (y r0 r1 r2 r3 : String) (r : MatchListRow) :
    (finalsStep y r0 r1 r2 r3 r).year = r.year := by
  simp [finalsStep, stepRow_year]

lemma finalsStep_home (y r0 r1 r2 r3 : String) (r : MatchListRow) :
    (finalsStep y r0 r1 r2 r3 r).home = r.home := by
  simp [finalsStep, stepRow_home]

lemma finalsStep_away (y r0 r1 r2 r3 : String) (r : MatchListRow) :
    (finalsStep y r0 r1 r2 r3 r).away = r.away := by
  simp [finalsStep, stepRow_away]

lemma finalsStep_of_ne_year {y : String} {r : MatchListRow} (h : r.year ≠ y)
    (r0 r1 r2 r3 : String) : finalsStep y r0 r1 r2 r3 r = r := by
  simp only [finalsStep, stepRow_of_ne_year h]

/-- A row the four assignments changed had the year being processed and one of
the four selected round values. -/
lemma finalsStep_changes {y r0 r1 r2 r3 : String} {r : MatchListRow}
    (h : finalsStep y r0 r1 r2 r3 r ≠ r) :
    r.year = y ∧ (r.round = r0 ∨ r.round = r1 ∨ r.round = r2 ∨ r.round = r3) := by
  by_cases hy : r.year = y
  · refine ⟨hy, ?_⟩
    by_cases h0 : r.round = r0
    · exact Or.inl h0
    by_cases h1 : r.round = r1
    · exact Or.inr (Or.inl h1)
    by_cases h2 : r.round = r2
    · exact Or.inr (Or.inr (Or.inl h2))
    by_cases h3 : r.round = r3
    · exact Or.inr (Or.inr (Or.inr h3))
    exact absurd (by simp only [finalsStep, stepRow_of_ne_round h0, stepRow_of_ne_round h1,
      stepRow_of_ne_round h2, stepRow_of_ne_round h3]) h
  · exact absurd (finalsStep_of_ne_year hy r0 r1 r2 r3) h

lemma relabelForYear_cases (rows : List MatchListRow) (y : String) :
    relabelForYear rows y = rows ∨
    ∃ r0 r1 r2 r3, (sortDesc (roundsOfYear rows y)).take 4 = [r0, r1, r2, r3] ∧
      relabelForYear rows y = rows.map (finalsStep y r0 r1 r2 r3) := by
  unfold relabelForYear
  split
  case h_1 r0 r1 r2 r3 heq =>
    right
    exact ⟨r0, r1, r2, r3, heq, by
      simp [applyMapStep, List.map_map, finalsStep, Function.comp]⟩
  case h_2 =>
    left; rfl

lemma insertDesc_length (x : String) (l : List String) :
    (insertDesc x l).length = l.length + 1 := by
  induction l with
  | nil => rfl
  | cons y ys ih =>
    unfold insertDesc
    split
    · rfl
    · simp [ih]

lemma sortDesc_length (l : List String) : (sortDesc l).length = l.length := by
  induction l with
  | nil => rfl
  | cons x xs ih => simp [sortDesc, insertDesc_length, ih]

lemma take4_length_ge {l : List String} {r0 r1 r2 r3 : String}
    (h : (sortDesc l).take 4 = [r0, r1, r2, r3]) : 4 ≤ l.length := by
  have h2 := congrArg List.length h
  rw [List.length_take, sortDesc_length] at h2
  simp only [List.length_cons, List.length_nil] at h2
  omega

lemma dedupSeen_nodup {α : Type} [BEq α] [LawfulBEq α] :
    ∀ (l seen : List α), (dedupSeen seen l).Nodup ∧ ∀ x ∈ dedupSeen seen l, x ∉ seen := by
  intro l
  induction l with
  | nil => exact fun seen => ⟨List.nodup_nil, fun x hx => absurd hx (List.not_mem_nil x)⟩
  | cons x xs ih =>
    intro seen
    simp only [dedupSeen]
    by_cases hx : seen.contains x = true
    · rw [if_pos hx]
      rcases ih seen with ⟨hnd, hmem⟩
      exact ⟨hnd, hmem⟩
    · rw [if_neg hx]
      rcases ih (x :: seen) with ⟨hnd, hmem⟩
      constructor
      · refine List.Nodup.cons ?_ hnd
        intro hmemx
        exact (hmem x hmemx) (List.mem_cons_self x seen)
      · intro z hz
        rcases List.mem_cons.mp hz with rfl | hz2
        · intro habs
          exact hx (List.elem_iff.mpr habs)
        · intro habs
          exact (hmem z hz2) (List.mem_cons_of_mem _ habs)

lemma uniqueOrder_nodup {α : Type} [BEq α] [LawfulBEq α] (l : List α) :
    (uniqueOrder l).Nodup := (dedupSeen_nodup l []).1

/-- Positionally related tables restricted to one year have equal filtered
sublists. -/
lemma filter_eq_of_forall₂ {y : String} :
    ∀ {l m : List MatchListRow},
      List.Forall₂ (fun a b => b.year = a.year ∧ (a.year = y → b = a)) l m →
      m.filter (fun r => r.year == y) = l.filter (fun r => r.year == y) := by
  intro l m h
  induction h with
  | nil => rfl
  | @cons a b l2 m2 hab hrest ih =>
    rcases hab with ⟨hyear, heq⟩
    by_cases hy : a.year = y
    · rw [heq hy]
      simp only [List.filter_cons]
      rw [ih]
    · have hb : b.year ≠ y := by rw [hyear]; exact hy
      simp only [List.filter_cons, beq_eq_false_iff_ne.mpr hb, beq_eq_false_iff_ne.mpr hy]
      exact ih

/-- The row-wise invariant the year-by-year fold maintains: positions, the
`Year`, `Home` and `Away` columns and the rows of a not-yet-processed or
non-qualifying year are untouched, and a changed `Round` value was one of the
year's four relabeled rounds. -/
def frameInv (rows0 : List MatchListRow) (ys : List String) (a b : MatchListRow) : Prop :=
  b.year = a.year ∧ b.home = a.home ∧ b.away = a.away ∧
  ((roundsOfYear rows0 a.year).length < 4 → b = a) ∧
  (b.round ≠ a.round → a.round ∈ (sortDesc (roundsOfYear rows0 a.year)).take 4) ∧
  (a.year ∈ ys → b = a)

lemma relabel_fold_inv (rows0 : List MatchListRow) :
    ∀ (ys : List String), ys.Nodup →
      ∀ cur, List.Forall₂ (frameInv rows0 ys) rows0 cur →
        List.Forall₂ (frameInv rows0 []) rows0 (ys.foldl relabelForYear cur) := by
  intro ys
  induction ys with
  | nil => exact fun _ cur h => h
  | cons y ys ih =>
    intro hnd cur hF
    have hynotin : y ∉ ys := (List.nodup_cons.mp hnd).1
    simp only [List.foldl_cons]
    apply ih (List.nodup_cons.mp hnd).2
    rcases relabelForYear_cases cur y with hid | ⟨r0, r1, r2, r3, htake, hmap⟩
    · rw [hid]
      refine hF.imp ?_
      rintro a b ⟨h1, h2, h3, h4, h5, h6⟩
      exact ⟨h1, h2, h3, h4, h5, fun hy => h6 (List.mem_cons_of_mem _ hy)⟩
    · -- the qualifying-year case: the fold step is a pointwise map
      have hfil : cur.filter (fun r => r.year == y) = rows0.filter (fun r => r.year == y) :=
        filter_eq_of_forall₂ (hF.imp (fun a b hab => ⟨hab.1, fun hy =>
          hab.2.2.2.2.2 (by rw [hy]; exact List.mem_cons_self y ys)⟩))
      have hroy : roundsOfYear cur y = roundsOfYear rows0 y := by
        unfold roundsOfYear; rw [hfil]
      have h4le : 4 ≤ (roundsOfYear rows0 y).length := by
        rw [← hroy]; exact take4_length_ge htake
      rw [hmap, List.forall₂_map_right_iff]
      refine hF.imp ?_
      rintro a b ⟨h1, h2, h3, h4, h5, h6⟩
      have hGyear : (finalsStep y r0 r1 r2 r3 b).year = b.year := finalsStep_year ..
      refine ⟨by rw [hGyear, h1], by rw [finalsStep_home, h2], by rw [finalsStep_away, h3],
        ?_, ?_, ?_⟩
      · -- a non-qualifying year is untouched
        intro hlt
        by_cases hay : a.year = y
        · rw [hay] at hlt; omega
        · have hba : b = a := h4 hlt
          have hby : b.year ≠ y := by rw [h1]; exact hay
          rw [finalsStep_of_ne_year hby r0 r1 r2 r3, hba]
      · -- a changed round was one of the four relabeled rounds
        intro hne
        by_cases hba : finalsStep y r0 r1 r2 r3 b = b
        · rw [hba] at hne; exact h5 hne
        · have hchg := finalsStep_changes hba
          have hay : a.year = y := by rw [← h1]; exact hchg.1
          have hba2 : b = a := h6 (by rw [hay]; exact List.mem_cons_self y ys)
          subst hba2
          rw [hay, ← hroy, htake]
          rcases hchg.2 with h | h | h | h <;> simp [h]
      · -- a year still to be processed is untouched
        intro hy
        have hay : a.year ≠ y := fun habs => hynotin (habs ▸ hy)
        have hba : b = a := h6 (List.mem_cons_of_mem _ hy)
        have hby : b.year ≠ y := by rw [h1]; exact hay
        rw [finalsStep_of_ne_year hby r0 r1 r2 r3, hba]

/-- C1: evaluating the relabeling on its failing input and on the spec's own
example.  For year 2023 with round strings 9..13 the *string* sort puts "9"
first, so "9" becomes grand-final, "13" finals-week-3, "12" finals-week-2,
"11" finals-week-1 and "10" is left as is — not the numerically highest four.
For rounds 24..28, where string and numeric order agree, the code matches the
spec's example. -/
theorem relabelFinals_string_sort_bug :
    relabelFinals
      [mkRow "2023" "9", mkRow "2023" "10", mkRow "2023" "11",
       mkRow "2023" "12", mkRow "2023" "13"] =
      [mkRow "2023" "grand-final", mkRow "2023" "10", mkRow "2023" "finals-week-1",
       mkRow "2023" "finals-week-2", mkRow "2023" "finals-week-3"] ∧
    relabelFinals
      [mkRow "2023" "24", mkRow "2023" "25", mkRow "2023" "26",
       mkRow "2023" "27", mkRow "2023" "28"] =
      [mkRow "2023" "24", mkRow "2023" "finals-week-1", mkRow "2023" "finals-week-2",
       mkRow "2023" "finals-week-3", mkRow "2023" "grand-final"] := by
  constructor <;> decide

/-- C7: the relabeling is a frame-preserving pass — same number of rows in the
same positions, `Year`, `Home` and `Away` never change, every row of a year
with fewer than four distinct rounds is returned verbatim, and a row whose
`Round` changed carried one of the four relabeled round values of its year. -/
theorem relabelFinals_frame (rows : List MatchListRow) :
    (relabelFinals rows).length = rows.length ∧
    List.Forall₂ (fun a b =>
      b.year = a.year ∧ b.home = a.home ∧ b.away = a.away ∧
      ((roundsOfYear rows a.year).length < 4 → b = a) ∧
      (b.round ≠ a.round → a.round ∈ (sortDesc (roundsOfYear rows a.year)).take 4))
      rows (relabelFinals rows) := by
  have hF : List.Forall₂ (frameInv rows []) rows (relabelFinals rows) := by
    unfold relabelFinals
    apply relabel_fold_inv rows _ (uniqueOrder_nodup _) rows
    rw [List.forall₂_same]
    intro x _
    exact ⟨rfl, rfl, rfl, fun _ => rfl, fun h => absurd rfl h, fun _ => rfl⟩
  refine ⟨hF.length_eq.symm, hF.imp ?_⟩
  rintro a b ⟨h1, h2, h3, h4, h5, _⟩
  exact ⟨h1, h2, h3, h4, h5⟩

/-! ## The basic flattener (`convert_json_to_table`)

The source walks the nested JSON
`{competition: [{year: [{round: [match, ...]}]}]}` in five nested `for`
loops, cleans the `Venue` field in place, and appends one row
`[competition, year, round] + [match[h] for h in headers[3:]]` per match.
Plain `d[k]` indexing raises `KeyError` when a field is missing; the
embedding returns `none` for the whole conversion in that case, as the
exception propagates out of the function. -/

/-- A Python dict with string keys, as an association list in insertion
order.  `lookup?` is `d[k]`, with `none` for a raised `KeyError`. -/
def lookup? {β : Type} : List (String × β) → String → Option β
  | [], _ => none
  | (k2, v) :: rest, k => if k2 == k then some v else lookup? rest k

/-- Python `d.get(k, default)`. -/
def pyGetD {β : Type} (d : List (String × β)) (k : String) (dflt : β) : β :=
  (lookup? d k).getD dflt

/-- Python `d[k] = v`: overwrite in place keeping the position, else append. -/
def setKey {β : Type} : List (String × β) → String → β → List (String × β)
  | [], k, v => [(k, v)]
  | (k2, v2) :: rest, k, v =>
    if k2 == k then (k2, v) :: rest else (k2, v2) :: setKey rest k v

/-- A leaf match record. -/
abbrev Record := List (String × String)

/-- `{round_num: [match, ...]}`. -/
abbrev RoundData := List (String × List Record)

/-- `{year: [round_data, ...]}`. -/
abbrev YearData := List (String × List RoundData)

/-- `{competition: [year_data, ...]}`. -/
abbrev BasicJson := List (String × List YearData)

/-- The declared column schema of the basic table. -/
def basic_headers : List String :=
  ["Competition", "Year", "Round", "Details", "Date", "Home",
   "Home_Score", "Away", "Away_Score", "Venue"]

/-- `mapM` over `Option`, written out. -/
def mapMO {α β : Type} (f : α → Option β) : List α → Option (List β)
  | [] => some []
  | a :: l => (f a).bind fun b => (mapMO f l).map fun bs => b :: bs

/-- A Python `for` loop whose body may raise, threading the accumulator. -/
def foldlO {α β : Type} (step : β → α → Option β) : β → List α → Option β
  | acc, [] => some acc
  | acc, x :: l => (step acc x).bind fun acc2 => foldlO step acc2 l

/-- The body of the innermost loop: clean the `Venue` field in place
(`match['Venue'] = clean_text(match['Venue'])`, a `KeyError` when absent),
then collect `match[header]` for the seven non-ancestor headers. -/
def buildBasicRow (competition year round_num : String) (m : Record) :
    Option (List String) :=
  (lookup? m "Venue").bind fun v =>
    (mapMO (fun h => lookup? (setKey m "Venue" (clean_text v)) h)
      (basic_headers.drop 3)).map
      fun fields => [competition, year, round_num] ++ fields

/-- `convert_json_to_table`, loop for loop. -/
def convert_json_to_table (j : BasicJson) : Option (List (List String)) :=
  foldlO (fun acc cy =>
    foldlO (fun acc yd =>
      foldlO (fun acc yr =>
        foldlO (fun acc rd =>
          foldlO (fun acc rm =>
            foldlO (fun acc m =>
              (buildBasicRow cy.1 yr.1 rm.1 m).bind fun row => some (acc ++ [row]))
              acc rm.2)
            acc rd)
          acc yr.2)
        acc yd)
      acc cy.2)
    [] j

/-- The leaf records of the nested input with their ancestor keys, in
traversal order. -/
def leavesBasic (j : BasicJson) : List (String × String × String × Record) :=
  j.flatMap fun cy => cy.2.flatMap fun yd => yd.flatMap fun yr =>
    yr.2.flatMap fun rd => rd.flatMap fun rm => rm.2.map fun m => (cy.1, yr.1, rm.1, m)

/-- The number of leaf match records of the nested input. -/
def countLeavesBasic (j : BasicJson) : Nat :=
  (j.map fun cy => (cy.2.map fun yd => (yd.map fun yr =>
    (yr.2.map fun rd => (rd.map fun rm => rm.2.length).sum).sum).sum).sum).sum

/-- `buildBasicRow` over a tagged leaf. -/
def basicRowOf (t : String × String × String × Record) : Option (List String) :=
  buildBasicRow t.1 t.2.1 t.2.2.1 t.2.2.2

/-- The one-row block a tagged leaf contributes to the table. -/
def kkB (t : String × String × String × Record) : Option (List (List String)) :=
  (basicRowOf t).map fun row => [row]

/-! ### Option-fold machinery -/

/-- Concatenate the per-element row blocks, failing when any block fails. -/
def foldAppendO {α β : Type} (k : α → Option (List β)) : List α → Option (List β)
  | [] => some []
  | x :: l => (k x).bind fun bs => (foldAppendO k l).map fun rest => bs ++ rest

lemma foldlO_char {α β : Type} (step : List β → α → Option (List β))
    (k : α → Option (List β))
    (hk : ∀ acc x, step acc x = (k x).map fun bs => acc ++ bs) :
    ∀ (l : List α) (acc : List β),
      foldlO step acc l = (foldAppendO k l).map fun bs => acc ++ bs := by
  intro l
  induction l with
  | nil => intro acc; simp [foldlO, foldAppendO]
  | cons x xs ih =>
    intro acc
    simp only [foldlO, foldAppendO, hk]
    cases hkx : k x with
    | none => simp
    | some bs =>
      simp only [Option.map_some', Option.some_bind]
      rw [ih]
      cases hrest : foldAppendO k xs with
      | none => simp
      | some rest => simp [List.append_assoc]

lemma foldAppendO_append {α β : Type} (k : α → Option (List β)) :
    ∀ (xs ys : List α),
      foldAppendO k (xs ++ ys) =
        (foldAppendO k xs).bind fun as => (foldAppendO k ys).map fun bs => as ++ bs := by
  intro xs ys
  induction xs with
  | nil =>
    cases h : foldAppendO k ys <;> simp [foldAppendO, h]
  | cons x xs ih =>
    simp only [List.cons_append, foldAppendO]
    cases hkx : k x with
    | none => simp
    | some bs =>
      simp only [Option.some_bind, List.append_eq]
      rw [ih]
      cases h1 : foldAppendO k xs with
      | none => simp
      | some as =>
        cases h2 : foldAppendO k ys with
        | none => simp
        | some cs => simp [List.append_assoc]

lemma foldAppendO_flatMap {α γ β : Type} (k : γ → Option (List β)) (g : α → List γ) :
    ∀ l : List α,
      foldAppendO (fun x => foldAppendO k (g x)) l = foldAppendO k (l.flatMap g) := by
  intro l
  induction l with
  | nil => simp [foldAppendO]
  | cons x xs ih =>
    simp only [List.flatMap_cons, foldAppendO_append, foldAppendO, ih]

lemma foldAppendO_map {α γ β : Type} (k : γ → Option (List β)) (g : α → γ) :
    ∀ l : List α, foldAppendO k (l.map g) = foldAppendO (fun x => k (g x)) l := by
  intro l
  induction l with
  | nil => rfl
  | cons x xs ih => simp only [List.map_cons, foldAppendO, ih]

lemma foldAppendO_singleton {α β : Type} (f : α → Option β) :
    ∀ l : List α, foldAppendO (fun x => (f x).map fun b => [b]) l = mapMO f l := by
  intro l
  induction l with
  | nil => rfl
  | cons x xs ih =>
    simp only [foldAppendO, mapMO, ih]
    cases hfx : f x <;> simp

lemma mapMO_length {α β : Type} (f : α → Option β) :
    ∀ {l : List α} {bs : List β}, mapMO f l = some bs → bs.length = l.length := by
  intro l
  induction l with
  | nil => intro bs h; simp [mapMO] at h; simp [← h]
  | cons x xs ih =>
    intro bs h
    simp only [mapMO] at h
    cases hfx : f x with
    | none => rw [hfx] at h; simp at h
    | some b =>
      rw [hfx] at h
      cases hrest : mapMO f xs with
      | none => rw [hrest] at h; simp at h
      | some rest =>
        rw [hrest] at h
        simp at h
        simp [← h, ih hrest]

lemma mapMO_map {α β γ : Type} (f : α → Option β) (p : β → γ) (q : α → γ)
    (hpq : ∀ a b, f a = some b → p b = q a) :
    ∀ {l : List α} {bs : List β}, mapMO f l = some bs → bs.map p = l.map q := by
  intro l
  induction l with
  | nil => intro bs h; simp [mapMO] at h; simp [← h]
  | cons x xs ih =>
    intro bs h
    simp only [mapMO] at h
    cases hfx : f x with
    | none => rw [hfx] at h; simp at h
    | some b =>
      rw [hfx] at h
      cases hrest : mapMO f xs with
      | none => rw [hrest] at h; simp at h
      | some rest =>
        rw [hrest] at h
        simp at h
        simp [← h, hpq x b hfx, ih hrest]

lemma mapMO_mem {α β : Type} (f : α → Option β) :
    ∀ {l : List α} {bs : List β}, mapMO f l = some bs →
      ∀ b ∈ bs, ∃ a ∈ l, f a = some b := by
  intro l
  induction l with
  | nil => intro bs h; simp [mapMO] at h; subst h; intro b hb; cases hb
  | cons x xs ih =>
    intro bs h
    simp only [mapMO] at h
    cases hfx : f x with
    | none => rw [hfx] at h; simp at h
    | some b =>
      rw [hfx] at h
      cases hrest : mapMO f xs with
      | none => rw [hrest] at h; simp at h
      | some rest =>
        rw [hrest] at h
        simp at h
        intro c hc
        rw [← h] at hc
        rcases List.mem_cons.mp hc with rfl | hc2
        · exact ⟨x, List.mem_cons_self _ _, hfx⟩
        · rcases ih hrest c hc2 with ⟨a, ha, hfa⟩
          exact ⟨a, List.mem_cons_of_mem _ ha, hfa⟩

lemma foldlO_nested {α γ : Type} (step : List (List String) → α → Option (List (List String)))
    (kk : γ → Option (List (List String))) (g : α → List γ)
    (hstep : ∀ acc x, step acc x = (foldAppendO kk (g x)).map fun bs => acc ++ bs) :
    ∀ (l : List α) (acc : List (List String)),
      foldlO step acc l = (foldAppendO kk (l.flatMap g)).map fun bs => acc ++ bs := by
  intro l acc
  rw [← foldAppendO_flatMap]
  exact foldlO_char step (fun x => foldAppendO kk (g x)) hstep l acc

lemma basic_level6 (c y r : String) :
    ∀ (ms : List Record) (acc : List (List String)),
      foldlO (fun acc m => (buildBasicRow c y r m).bind fun row => some (acc ++ [row])) acc ms
      = (foldAppendO kkB (ms.map fun m => (c, y, r, m))).map fun bs => acc ++ bs := by
  intro ms acc
  rw [foldAppendO_map]
  apply foldlO_char
  intro acc2 m
  cases h : buildBasicRow c y r m <;> simp [kkB, basicRowOf, h]

lemma basic_level5 (c y : String) :
    ∀ (rd : RoundData) (acc : List (List String)),
      foldlO (fun acc rm =>
        foldlO (fun acc m => (buildBasicRow c y rm.1 m).bind fun row => some (acc ++ [row]))
          acc rm.2) acc rd
      = (foldAppendO kkB (rd.flatMap fun rm => rm.2.map fun m => (c, y, rm.1, m))).map
          fun bs => acc ++ bs := by
  intro rd acc
  apply foldlO_nested
  intro acc2 rm
  exact basic_level6 c y rm.1 rm.2 acc2

lemma basic_level4 (c y : String) :
    ∀ (rds : List RoundData) (acc : List (List String)),
      foldlO (fun acc rd =>
        foldlO (fun acc rm =>
          foldlO (fun acc m => (buildBasicRow c y rm.1 m).bind fun row => some (acc ++ [row]))
            acc rm.2) acc rd) acc rds
      = (foldAppendO kkB (rds.flatMap fun rd => rd.flatMap fun rm =>
          rm.2.map fun m => (c, y, rm.1, m))).map fun bs => acc ++ bs := by
  intro rds acc
  apply foldlO_nested
  intro acc2 rd
  exact basic_level5 c y rd acc2

lemma basic_level3 (c : String) :
    ∀ (yd : YearData) (acc : List (List String)),
      foldlO (fun acc yr =>
        foldlO (fun acc rd =>
          foldlO (fun acc rm =>
            foldlO (fun acc m => (buildBasicRow c yr.1 rm.1 m).bind fun row => some (acc ++ [row]))
              acc rm.2) acc rd) acc yr.2) acc yd
      = (foldAppendO kkB (yd.flatMap fun yr => yr.2.flatMap fun rd => rd.flatMap fun rm =>
          rm.2.map fun m => (c, yr.1, rm.1, m))).map fun bs => acc ++ bs := by
  intro yd acc
  apply foldlO_nested
  intro acc2 yr
  exact basic_level4 c yr.1 yr.2 acc2

lemma basic_level2 (c : String) :
    ∀ (yds : List YearData) (acc : List (List String)),
      foldlO (fun acc yd =>
        foldlO (fun acc yr =>
          foldlO (fun acc rd =>
            foldlO (fun acc rm =>
              foldlO (fun acc m => (buildBasicRow c yr.1 rm.1 m).bind fun row => some (acc ++ [row]))
                acc rm.2) acc rd) acc yr.2) acc yd) acc yds
      = (foldAppendO kkB (yds.flatMap fun yd => yd.flatMap fun yr => yr.2.flatMap fun rd =>
          rd.flatMap fun rm => rm.2.map fun m => (c, yr.1, rm.1, m))).map fun bs => acc ++ bs := by
  intro yds acc
  apply foldlO_nested
  intro acc2 yd
  exact basic_level3 c yd acc2

lemma basic_level1 :
    ∀ (j : BasicJson) (acc : List (List String)),
      foldlO (fun acc cy =>
        foldlO (fun acc yd =>
          foldlO (fun acc yr =>
            foldlO (fun acc rd =>
              foldlO (fun acc rm =>
                foldlO (fun acc m =>
                  (buildBasicRow cy.1 yr.1 rm.1 m).bind fun row => some (acc ++ [row]))
                  acc rm.2) acc rd) acc yr.2) acc yd) acc cy.2) acc j
      = (foldAppendO kkB (leavesBasic j)).map fun bs => acc ++ bs := by
  intro j acc
  apply foldlO_nested
  intro acc2 cy
  exact basic_level2 cy.1 cy.2 acc2

lemma foldAppendO_kkB (l : List (String × String × String × Record)) :
    foldAppendO kkB l = mapMO basicRowOf l :=
  foldAppendO_singleton basicRowOf l

/-- The basic flattener is exactly the row builder mapped over the leaf
records in traversal order. -/
lemma convert_char (j : BasicJson) :
    convert_json_to_table j = mapMO basicRowOf (leavesBasic j) := by
  unfold convert_json_to_table
  rw [basic_level1 j [], foldAppendO_kkB]
  cases mapMO basicRowOf (leavesBasic j) <;> simp

lemma buildBasicRow_length {c y r : String} {m : Record} {row : List String}
    (h : buildBasicRow c y r m = some row) : row.length = basic_headers.length := by
  unfold buildBasicRow at h
  cases hv : lookup? m "Venue" with
  | none => rw [hv] at h; simp at h
  | some v =>
    rw [hv] at h
    simp only [Option.some_bind] at h
    cases hf : mapMO (fun hd => lookup? (setKey m "Venue" (clean_text v)) hd)
        (basic_headers.drop 3) with
    | none => rw [hf] at h; simp at h
    | some fields =>
      rw [hf] at h
      simp only [Option.map_some', Option.some.injEq] at h
      rw [← h, List.length_append]
      rw [mapMO_length _ hf]
      rfl

lemma buildBasicRow_take3 {c y r : String} {m : Record} {row : List String}
    (h : buildBasicRow c y r m = some row) : row.take 3 = [c, y, r] := by
  unfold buildBasicRow at h
  cases hv : lookup? m "Venue" with
  | none => rw [hv] at h; simp at h
  | some v =>
    rw [hv] at h
    simp only [Option.some_bind] at h
    cases hf : mapMO (fun hd => lookup? (setKey m "Venue" (clean_text v)) hd)
        (basic_headers.drop 3) with
    | none => rw [hf] at h; simp at h
    | some fields =>
      rw [hf] at h
      simp only [Option.map_some', Option.some.injEq] at h
      rw [← h]
      rfl

lemma lenB5 (c y : String) (rd : RoundData) :
    (rd.flatMap fun rm => rm.2.map fun m => (c, y, rm.1, m)).length
      = (rd.map fun rm => rm.2.length).sum := by
  rw [List.length_flatMap]
  congr 1
  apply List.map_congr_left
  intro rm _
  simp [Function.comp, List.length_map]

lemma lenB4 (c y : String) (rds : List RoundData) :
    (rds.flatMap fun rd => rd.flatMap fun rm => rm.2.map fun m => (c, y, rm.1, m)).length
      = (rds.map fun rd => (rd.map fun rm => rm.2.length).sum).sum := by
  rw [List.length_flatMap]
  congr 1
  apply List.map_congr_left
  intro rd _
  simp only [Function.comp_apply]
  exact lenB5 c y rd

lemma lenB3 (c : String) (yd : YearData) :
    (yd.flatMap fun yr => yr.2.flatMap fun rd => rd.flatMap fun rm =>
        rm.2.map fun m => (c, yr.1, rm.1, m)).length
      = (yd.map fun yr => (yr.2.map fun rd => (rd.map fun rm => rm.2.length).sum).sum).sum := by
  rw [List.length_flatMap]
  congr 1
  apply List.map_congr_left
  intro yr _
  simp only [Function.comp_apply]
  exact lenB4 c yr.1 yr.2

lemma lenB2 (c : String) (yds : List YearData) :
    (yds.flatMap fun yd => yd.flatMap fun yr => yr.2.flatMap fun rd =>
        rd.flatMap fun rm => rm.2.map fun m => (c, yr.1, rm.1, m)).length
      = (yds.map fun yd => (yd.map fun yr =>
          (yr.2.map fun rd => (rd.map fun rm => rm.2.length).sum).sum).sum).sum := by
  rw [List.length_flatMap]
  congr 1
  apply List.map_congr_left
  intro yd _
  simp only [Function.comp_apply]
  exact lenB3 c yd

lemma leavesBasic_length (j : BasicJson) : (leavesBasic j).length = countLeavesBasic j := by
  unfold leavesBasic countLeavesBasic
  rw [List.length_flatMap]
  congr 1
  apply List.map_congr_left
  intro cy _
  simp only [Function.comp_apply]
  exact lenB2 cy.1 cy.2

/-! ## The detailed flatteners (`get_detailed_nrl_data`)

The source flattens three masters of shape
`{competition: [{year: [{round: [{game: ...}]}]}]}`:

* statistics — leaf `{game: {team: team_stats}}`, one row per team,
  `row = [competition, year, round_num, game] + [team_stats.get('home/away', '')]`
  then `team_stats.get(header.lower().replace(' ', '_'), '')` per remaining header;
* match metadata — leaf `{game: game_stats}`, one row per game;
* try scorers — leaf `{game: {team: {try_names: [...], try_minutes: [...]}}}`,
  one row per `zip(try_names, try_minutes)` pair, with every apostrophe
  (code point 39) removed from the minute value.

All three use `.get` with a default, so a missing field degrades to an empty
value instead of raising. -/

/-- `header.lower().replace(' ', '_')`: the headers are ASCII and the pattern
is a single character, so both Python calls act character by character. -/
def headerKey (h : String) : String :=
  String.mk (h.data.map fun c => if c = ' ' then '_' else c.toLower)

/-- The declared column schema of the statistics table. -/
def stats_data_headers : List String :=
  ["Competition", "Year", "Round", "Game", "Home/Away", "Possession", "First Try Scorer",
   "First Try Time", "Time In Possession", "All Runs", "All Run Metres", "Post Contact Metres",
   "Line Breaks", "Tackle Breaks", "Average Set Distance", "Kick Return Metres", "Offloads",
   "Receipts", "Total Passes", "Dummy Passes", "Kicks", "Kicking Metres", "Forced Drop Outs",
   "Bombs", "Grubbers", "Tackles Made", "Missed Tackles", "Intercepts", "Ineffective Tackles",
   "Errors", "Penalties Conceded", "Ruck Infringements", "Inside 10 Metres", "Interchanges Used",
   "Completion Rate", "Average Play Ball Speed", "Kick Defusal", "Effective Tackle", "Tries",
   "Conversions", "Penalty Goals", "Sin Bins", "1 Point Field Goals", "2 Point Field Goals",
   "Half Time"]

/-- The declared column schema of the match-metadata table. -/
def match_data_headers : List String :=
  ["Competition", "Year", "Round", "Game", "Overall First Try Scorer",
   "Overall First Try Minute", "Overall First Try Round", "Main Ref", "Ground Condition",
   "Weather Condition"]

/-- The declared column schema of the try-scorer table. -/
def try_data_headers : List String :=
  ["Competition", "Year", "Round", "Game", "Home/Away", "Try Names", "Try Minutes"]

/-- `{team: team_stats}`. -/
abbrev StatsTeams := List (String × Record)

/-- `{game: {team: team_stats}}`. -/
abbrev StatsGameDict := List (String × StatsTeams)

/-- `{round_num: [game_dict, ...]}`. -/
abbrev StatsRoundDict := List (String × List StatsGameDict)

/-- `{year: [round_dict, ...]}`. -/
abbrev StatsYearDict := List (String × List StatsRoundDict)

/-- `{competition: [year_dict, ...]}` for the statistics master. -/
abbrev MasterStats := List (String × List StatsYearDict)

/-- One statistics row. -/
def statsRow (c y r g : String) (ts : Record) : List String :=
  [c, y, r, g] ++ [pyGetD ts "home/away" ""] ++
    (stats_data_headers.drop 5).map fun h => pyGetD ts (headerKey h) ""

/-- The statistics flattener, loop for loop. -/
def statsFlatten (master : MasterStats) : List (List String) :=
  master.foldl (fun acc cy =>
    cy.2.foldl (fun acc yd =>
      yd.foldl (fun acc yr =>
        yr.2.foldl (fun acc rd =>
          rd.foldl (fun acc rg =>
            rg.2.foldl (fun acc gd =>
              gd.foldl (fun acc gt =>
                gt.2.foldl (fun acc t =>
                  acc ++ [statsRow cy.1 yr.1 rg.1 gt.1 t.2]) acc) acc) acc) acc) acc) acc) acc) []

/-- `{game: game_stats}`. -/
abbrev MatchGameDict := List (String × Record)

/-- `{round_num: [game_dict, ...]}`. -/
abbrev MatchRoundDict := List (String × List MatchGameDict)

/-- `{year: [round_dict, ...]}`. -/
abbrev MatchYearDict := List (String × List MatchRoundDict)

/-- `{competition: [year_dict, ...]}` for the metadata master. -/
abbrev MasterMatch := List (String × List MatchYearDict)

/-- One match-metadata row. -/
def matchRow (c y r g : String) (gs : Record) : List String :=
  [c, y, r, g] ++ (match_data_headers.drop 4).map fun h => pyGetD gs (headerKey h) ""

/-- The match-metadata flattener, loop for loop. -/
def matchFlatten (master : MasterMatch) : List (List String) :=
  master.foldl (fun acc cy =>
    cy.2.foldl (fun acc yd =>
      yd.foldl (fun acc yr =>
        yr.2.foldl (fun acc rd =>
          rd.foldl (fun acc rg =>
            rg.2.foldl (fun acc gd =>
              gd.foldl (fun acc g =>
                acc ++ [matchRow cy.1 yr.1 rg.1 g.1 g.2]) acc) acc) acc) acc) acc) acc) []

/-- A try-scorer leaf record: the two list-valued fields the flattener reads
(the scraper also stores a scalar home/away tag it never reads back). -/
abbrev TryRecord := List (String × List String)

/-- `{team: try_record}`. -/
abbrev TryTeams := List (String × TryRecord)

/-- `{game: {team: try_record}}`. -/
abbrev TryGameDict := List (String × TryTeams)

/-- `{round_num: [game_dict, ...]}`. -/
abbrev TryRoundDict := List (String × List TryGameDict)

/-- `{year: [round_dict, ...]}`. -/
abbrev TryYearDict := List (String × List TryRoundDict)

/-- `{competition: [year_dict, ...]}` for the try master. -/
abbrev MasterTry := List (String × List TryYearDict)

/-- `try_minute.replace(apostrophe, "")`: drop every code point 39. -/
def stripApos (s : String) : String := String.mk (s.data.filter fun c => c.toNat ≠ 39)

/-- One try-scorer row. -/
def tryRow (c y r g team : String) (nm : String × String) : List String :=
  [c, y, r, g, team, nm.1, stripApos nm.2]

/-- The try flattener, loop for loop; the innermost loop runs over
`zip(try_names, try_minutes)`. -/
def tryFlatten (master : MasterTry) : List (List String) :=
  master.foldl (fun acc cy =>
    cy.2.foldl (fun acc yd =>
      yd.foldl (fun acc yr =>
        yr.2.foldl (fun acc rd =>
          rd.foldl (fun acc rg =>
            rg.2.foldl (fun acc gd =>
              gd.foldl (fun acc gt =>
                gt.2.foldl (fun acc t =>
                  ((pyGetD t.2 "try_names" []).zip (pyGetD t.2 "try_minutes" [])).foldl
                    (fun acc nm => acc ++ [tryRow cy.1 yr.1 rg.1 gt.1 t.1 nm]) acc)
                  acc) acc) acc) acc) acc) acc) acc) []

/-- The try-scorer leaves with their ancestor keys and team, in traversal
order. -/
def tryLeaves (master : MasterTry) :
    List (String × String × String × String × String × TryRecord) :=
  master.flatMap fun cy => cy.2.flatMap fun yd => yd.flatMap fun yr =>
    yr.2.flatMap fun rd => rd.flatMap fun rg => rg.2.flatMap fun gd =>
      gd.flatMap fun gt => gt.2.map fun t => (cy.1, yr.1, rg.1, gt.1, t.1, t.2)

/-- The record component of a tagged try leaf. -/
def tryRec (t : String × String × String × String × String × TryRecord) : TryRecord :=
  t.2.2.2.2.2

/-- The rows one try leaf fans out to. -/
def tryRowsOfLeaf (t : String × String × String × String × String × TryRecord) :
    List (List String) :=
  ((pyGetD (tryRec t) "try_names" []).zip (pyGetD (tryRec t) "try_minutes" [])).map
    (tryRow t.1 t.2.1 t.2.2.1 t.2.2.2.1 t.2.2.2.2.1)

/-! ### pure fold machinery -/

lemma foldl_inv {α β : Type} (Q : List β → Prop) (step : List β → α → List β)
    (hstep : ∀ acc x, Q acc → Q (step acc x)) :
    ∀ (l : List α) (acc : List β), Q acc → Q (l.foldl step acc) := by
  intro l
  induction l with
  | nil => exact fun acc h => h
  | cons x xs ih => exact fun acc h => ih (step acc x) (hstep acc x h)

lemma foldl_extend {α β : Type} (step : List β → α → List β) (k : α → List β)
    (hk : ∀ acc x, step acc x = acc ++ k x) :
    ∀ (l : List α) (acc : List β), l.foldl step acc = acc ++ l.flatMap k := by
  intro l
  induction l with
  | nil => intro acc; simp
  | cons x xs ih =>
    intro acc
    rw [List.foldl_cons, hk, ih, List.flatMap_cons, List.append_assoc]

lemma flatMap_singleton {α β : Type} (f : α → β) (l : List α) :
    l.flatMap (fun x => [f x]) = l.map f := by
  induction l with
  | nil => rfl
  | cons x xs ih => simp [List.flatMap_cons, ih]

lemma foldl_nested {α γ β : Type} (step : List β → α → List β)
    (k : γ → List β) (g : α → List γ)
    (hstep : ∀ acc x, step acc x = acc ++ (g x).flatMap k) :
    ∀ (l : List α) (acc : List β), l.foldl step acc = acc ++ (l.flatMap g).flatMap k := by
  intro l acc
  rw [List.flatMap_assoc]
  exact foldl_extend step (fun x => (g x).flatMap k) hstep l acc

/-- Every row of `accL` has exactly `n` entries. -/
def RowsLen (n : Nat) (accL : List (List String)) : Prop :=
  ∀ row ∈ accL, row.length = n

lemma statsRow_length (c y r g : String) (ts : Record) :
    (statsRow c y r g ts).length = stats_data_headers.length := rfl

lemma matchRow_length (c y r g : String) (gs : Record) :
    (matchRow c y r g gs).length = match_data_headers.length := rfl

lemma tryRow_length (c y r g team : String) (nm : String × String) :
    (tryRow c y r g team nm).length = try_data_headers.length := rfl

lemma statsFlatten_row_length (master : MasterStats) :
    ∀ row ∈ statsFlatten master, row.length = stats_data_headers.length := by
  unfold statsFlatten
  apply foldl_inv (RowsLen stats_data_headers.length)
    _ ?_ master [] (fun row hr => absurd hr (List.not_mem_nil row))
  intro acc cy hacc
  apply foldl_inv (RowsLen stats_data_headers.length) _ ?_ cy.2 acc hacc
  intro acc yd hacc
  apply foldl_inv (RowsLen stats_data_headers.length) _ ?_ yd acc hacc
  intro acc yr hacc
  apply foldl_inv (RowsLen stats_data_headers.length) _ ?_ yr.2 acc hacc
  intro acc rd hacc
  apply foldl_inv (RowsLen stats_data_headers.length) _ ?_ rd acc hacc
  intro acc rg hacc
  apply foldl_inv (RowsLen stats_data_headers.length) _ ?_ rg.2 acc hacc
  intro acc gd hacc
  apply foldl_inv (RowsLen stats_data_headers.length) _ ?_ gd acc hacc
  intro acc gt hacc
  apply foldl_inv (RowsLen stats_data_headers.length) _ ?_ gt.2 acc hacc
  intro acc t hacc
  intro row hrow
  rcases List.mem_append.mp hrow with h | h
  · exact hacc row h
  · rw [List.mem_singleton.mp h]
    exact statsRow_length ..

lemma matchFlatten_row_length (master : MasterMatch) :
    ∀ row ∈ matchFlatten master, row.length = match_data_headers.length := by
  unfold matchFlatten
  apply foldl_inv (RowsLen match_data_headers.length)
    _ ?_ master [] (fun row hr => absurd hr (List.not_mem_nil row))
  intro acc cy hacc
  apply foldl_inv (RowsLen match_data_headers.length) _ ?_ cy.2 acc hacc
  intro acc yd hacc
  apply foldl_inv (RowsLen match_data_headers.length) _ ?_ yd acc hacc
  intro acc yr hacc
  apply foldl_inv (RowsLen match_data_headers.length) _ ?_ yr.2 acc hacc
  intro acc rd hacc
  apply foldl_inv (RowsLen match_data_headers.length) _ ?_ rd acc hacc
  intro acc rg hacc
  apply foldl_inv (RowsLen match_data_headers.length) _ ?_ rg.2 acc hacc
  intro acc gd hacc
  apply foldl_inv (RowsLen match_data_headers.length) _ ?_ gd acc hacc
  intro acc g hacc
  intro row hrow
  rcases List.mem_append.mp hrow with h | h
  · exact hacc row h
  · rw [List.mem_singleton.mp h]
    exact matchRow_length ..

lemma tryFlatten_row_length (master : MasterTry) :
    ∀ row ∈ tryFlatten master, row.length = try_data_headers.length := by
  unfold tryFlatten
  apply foldl_inv (RowsLen try_data_headers.length)
    _ ?_ master [] (fun row hr => absurd hr (List.not_mem_nil row))
  intro acc cy hacc
  apply foldl_inv (RowsLen try_data_headers.length) _ ?_ cy.2 acc hacc
  intro acc yd hacc
  apply foldl_inv (RowsLen try_data_headers.length) _ ?_ yd acc hacc
  intro acc yr hacc
  apply foldl_inv (RowsLen try_data_headers.length) _ ?_ yr.2 acc hacc
  intro acc rd hacc
  apply foldl_inv (RowsLen try_data_headers.length) _ ?_ rd acc hacc
  intro acc rg hacc
  apply foldl_inv (RowsLen try_data_headers.length) _ ?_ rg.2 acc hacc
  intro acc gd hacc
  apply foldl_inv (RowsLen try_data_headers.length) _ ?_ gd acc hacc
  intro acc gt hacc
  apply foldl_inv (RowsLen try_data_headers.length) _ ?_ gt.2 acc hacc
  intro acc t hacc
  apply foldl_inv (RowsLen try_data_headers.length) _ ?_
    ((pyGetD t.2 "try_names" []).zip (pyGetD t.2 "try_minutes" [])) acc hacc
  intro acc nm hacc
  intro row hrow
  rcases List.mem_append.mp hrow with h | h
  · exact hacc row h
  · rw [List.mem_singleton.mp h]
    exact tryRow_length ..

lemma try_level9 (c y r g team : String) (rec : TryRecord) (acc : List (List String)) :
    ((pyGetD rec "try_names" []).zip (pyGetD rec "try_minutes" [])).foldl
      (fun acc nm => acc ++ [tryRow c y r g team nm]) acc
    = acc ++ ((pyGetD rec "try_names" []).zip (pyGetD rec "try_minutes" [])).map
        (tryRow c y r g team) := by
  rw [foldl_extend _ (fun nm => [tryRow c y r g team nm]) (fun _ _ => rfl), flatMap_singleton]

lemma try_level8 (c y r g : String) :
    ∀ (ts : TryTeams) (acc : List (List String)),
      ts.foldl (fun acc t =>
        ((pyGetD t.2 "try_names" []).zip (pyGetD t.2 "try_minutes" [])).foldl
          (fun acc nm => acc ++ [tryRow c y r g t.1 nm]) acc) acc
      = acc ++ (ts.map fun t => (c, y, r, g, t.1, t.2)).flatMap tryRowsOfLeaf := by
  intro ts acc
  rw [List.flatMap_map]
  apply foldl_extend
  intro acc2 t
  exact try_level9 c y r g t.1 t.2 acc2

lemma try_level7 (c y r : String) :
    ∀ (gd : TryGameDict) (acc : List (List String)),
      gd.foldl (fun acc gt =>
        gt.2.foldl (fun acc t =>
          ((pyGetD t.2 "try_names" []).zip (pyGetD t.2 "try_minutes" [])).foldl
            (fun acc nm => acc ++ [tryRow c y r gt.1 t.1 nm]) acc) acc) acc
      = acc ++ (gd.flatMap fun gt => gt.2.map fun t =>
          (c, y, r, gt.1, t.1, t.2)).flatMap tryRowsOfLeaf := by
  intro gd acc
  apply foldl_nested
  intro acc2 gt
  exact try_level8 c y r gt.1 gt.2 acc2

lemma try_level6 (c y r : String) :
    ∀ (gds : List TryGameDict) (acc : List (List String)),
      gds.foldl (fun acc gd =>
        gd.foldl (fun acc gt =>
          gt.2.foldl (fun acc t =>
            ((pyGetD t.2 "try_names" []).zip (pyGetD t.2 "try_minutes" [])).foldl
              (fun acc nm => acc ++ [tryRow c y r gt.1 t.1 nm]) acc) acc) acc) acc
      = acc ++ (gds.flatMap fun gd => gd.flatMap fun gt => gt.2.map fun t =>
          (c, y, r, gt.1, t.1, t.2)).flatMap tryRowsOfLeaf := by
  intro gds acc
  apply foldl_nested
  intro acc2 gd
  exact try_level7 c y r gd acc2

lemma try_level5 (c y : String) :
    ∀ (rd : TryRoundDict) (acc : List (List String)),
      rd.foldl (fun acc rg =>
        rg.2.foldl (fun acc gd =>
          gd.foldl (fun acc gt =>
            gt.2.foldl (fun acc t =>
              ((pyGetD t.2 "try_names" []).zip (pyGetD t.2 "try_minutes" [])).foldl
                (fun acc nm => acc ++ [tryRow c y rg.1 gt.1 t.1 nm]) acc) acc) acc) acc) acc
      = acc ++ (rd.flatMap fun rg => rg.2.flatMap fun gd => gd.flatMap fun gt =>
          gt.2.map fun t => (c, y, rg.1, gt.1, t.1, t.2)).flatMap tryRowsOfLeaf := by
  intro rd acc
  apply foldl_nested
  intro acc2 rg
  exact try_level6 c y rg.1 rg.2 acc2

lemma try_level4 (c y : String) :
    ∀ (rds : List TryRoundDict) (acc : List (List String)),
      rds.foldl (fun acc rd =>
        rd.foldl (fun acc rg =>
          rg.2.foldl (fun acc gd =>
            gd.foldl (fun acc gt =>
              gt.2.foldl (fun acc t =>
                ((pyGetD t.2 "try_names" []).zip (pyGetD t.2 "try_minutes" [])).foldl
                  (fun acc nm => acc ++ [tryRow c y rg.1 gt.1 t.1 nm]) acc) acc) acc) acc) acc) acc
      = acc ++ (rds.flatMap fun rd => rd.flatMap fun rg => rg.2.flatMap fun gd =>
          gd.flatMap fun gt => gt.2.map fun t =>
            (c, y, rg.1, gt.1, t.1, t.2)).flatMap tryRowsOfLeaf := by
  intro rds acc
  apply foldl_nested
  intro acc2 rd
  exact try_level5 c y rd acc2

lemma try_level3 (c : String) :
    ∀ (yd : TryYearDict) (acc : List (List String)),
      yd.foldl (fun acc yr =>
        yr.2.foldl (fun acc rd =>
          rd.foldl (fun acc rg =>
            rg.2.foldl (fun acc gd =>
              gd.foldl (fun acc gt =>
                gt.2.foldl (fun acc t =>
                  ((pyGetD t.2 "try_names" []).zip (pyGetD t.2 "try_minutes" [])).foldl
                    (fun acc nm => acc ++ [tryRow c yr.1 rg.1 gt.1 t.1 nm]) acc)
                  acc) acc) acc) acc) acc) acc
      = acc ++ (yd.flatMap fun yr => yr.2.flatMap fun rd => rd.flatMap fun rg =>
          rg.2.flatMap fun gd => gd.flatMap fun gt => gt.2.map fun t =>
            (c, yr.1, rg.1, gt.1, t.1, t.2)).flatMap tryRowsOfLeaf := by
  intro yd acc
  apply foldl_nested
  intro acc2 yr
  exact try_level4 c yr.1 yr.2 acc2

lemma try_level2 (c : String) :
    ∀ (yds : List TryYearDict) (acc : List (List String)),
      yds.foldl (fun acc yd =>
        yd.foldl (fun acc yr =>
          yr.2.foldl (fun acc rd =>
            rd.foldl (fun acc rg =>
              rg.2.foldl (fun acc gd =>
                gd.foldl (fun acc gt =>
                  gt.2.foldl (fun acc t =>
                    ((pyGetD t.2 "try_names" []).zip (pyGetD t.2 "try_minutes" [])).foldl
                      (fun acc nm => acc ++ [tryRow c yr.1 rg.1 gt.1 t.1 nm]) acc)
                    acc) acc) acc) acc) acc) acc) acc
      = acc ++ (yds.flatMap fun yd => yd.flatMap fun yr => yr.2.flatMap fun rd =>
          rd.flatMap fun rg => rg.2.flatMap fun gd => gd.flatMap fun gt =>
            gt.2.map fun t => (c, yr.1, rg.1, gt.1, t.1, t.2)).flatMap tryRowsOfLeaf := by
  intro yds acc
  apply foldl_nested
  intro acc2 yd
  exact try_level3 c yd acc2

lemma try_level1 :
    ∀ (master : MasterTry) (acc : List (List String)),
      master.foldl (fun acc cy =>
        cy.2.foldl (fun acc yd =>
          yd.foldl (fun acc yr =>
            yr.2.foldl (fun acc rd =>
              rd.foldl (fun acc rg =>
                rg.2.foldl (fun acc gd =>
                  gd.foldl (fun acc gt =>
                    gt.2.foldl (fun acc t =>
                      ((pyGetD t.2 "try_names" []).zip (pyGetD t.2 "try_minutes" [])).foldl
                        (fun acc nm => acc ++ [tryRow cy.1 yr.1 rg.1 gt.1 t.1 nm]) acc)
                      acc) acc) acc) acc) acc) acc) acc) acc
      = acc ++ (tryLeaves master).flatMap tryRowsOfLeaf := by
  intro master acc
  apply foldl_nested
  intro acc2 cy
  exact try_level2 cy.1 cy.2 acc2

/-- The try flattener is the per-leaf fan-out concatenated over the leaves in
traversal order. -/
lemma tryFlatten_char (master : MasterTry) :
    tryFlatten master = (tryLeaves master).flatMap tryRowsOfLeaf := by
  unfold tryFlatten
  rw [try_level1 master []]
  rfl

/-- A successful `mapMO` pairs every input with its own output, in order. -/
lemma mapMO_forall₂ {α β : Type} (f : α → Option β) :
    ∀ {l : List α} {bs : List β}, mapMO f l = some bs →
      List.Forall₂ (fun a b => f a = some b) l bs := by
  intro l
  induction l with
  | nil => intro bs h; simp [mapMO] at h; subst h; exact List.Forall₂.nil
  | cons x xs ih =>
    intro bs h
    simp only [mapMO] at h
    cases hfx : f x with
    | none => rw [hfx] at h; simp at h
    | some b =>
      rw [hfx] at h
      cases hrest : mapMO f xs with
      | none => rw [hrest] at h; simp at h
      | some rest =>
        rw [hrest] at h
        simp at h
        rw [← h]
        exact List.Forall₂.cons hfx (ih hrest)

/-- The exact shape of a successfully built basic row: the three ancestor
keys first, then the looked-up fields of `basic_headers.drop 3` in declared
order, read from the record after its in-place `Venue` cleanup. -/
lemma buildBasicRow_shape {c y r : String} {m : Record} {row : List String}
    (h : buildBasicRow c y r m = some row) :
    ∃ v fields, lookup? m "Venue" = some v ∧
      mapMO (fun hd => lookup? (setKey m "Venue" (clean_text v)) hd)
        (basic_headers.drop 3) = some fields ∧
      row = [c, y, r] ++ fields := by
  unfold buildBasicRow at h
  cases hv : lookup? m "Venue" with
  | none => rw [hv] at h; simp at h
  | some v =>
    rw [hv] at h
    simp only [Option.some_bind] at h
    cases hf : mapMO (fun hd => lookup? (setKey m "Venue" (clean_text v)) hd)
        (basic_headers.drop 3) with
    | none => rw [hf] at h; simp at h
    | some fields =>
      rw [hf] at h
      simp only [Option.map_some', Option.some.injEq] at h
      exact ⟨v, fields, rfl, hf, h.symm⟩

/-- The statistics leaves with their ancestor keys and team, in traversal
order. -/
def statsLeaves (master : MasterStats) :
    List (String × String × String × String × String × Record) :=
  master.flatMap fun cy => cy.2.flatMap fun yd => yd.flatMap fun yr =>
    yr.2.flatMap fun rd => rd.flatMap fun rg => rg.2.flatMap fun gd =>
      gd.flatMap fun gt => gt.2.map fun t => (cy.1, yr.1, rg.1, gt.1, t.1, t.2)

/-- The row one statistics leaf contributes. -/
def statsRowOfLeaf (t : String × String × String × String × String × Record) :
    List String :=
  statsRow t.1 t.2.1 t.2.2.1 t.2.2.2.1 t.2.2.2.2.2

lemma stats_level8 (c y r g : String) :
    ∀ (ts : StatsTeams) (acc : List (List String)),
      ts.foldl (fun acc t => acc ++ [statsRow c y r g t.2]) acc
      = acc ++ (ts.map fun t => (c, y, r, g, t.1, t.2)).flatMap
          (fun t => [statsRowOfLeaf t]) := by
  intro ts acc
  rw [List.flatMap_map]
  apply foldl_extend
  intro acc2 t
  rfl

lemma stats_level7 (c y r : String) :
    ∀ (gd : StatsGameDict) (acc : List (List String)),
      gd.foldl (fun acc gt =>
        gt.2.foldl (fun acc t => acc ++ [statsRow c y r gt.1 t.2]) acc) acc
      = acc ++ (gd.flatMap fun gt => gt.2.map fun t =>
          (c, y, r, gt.1, t.1, t.2)).flatMap (fun t => [statsRowOfLeaf t]) := by
  intro gd acc
  apply foldl_nested
  intro acc2 gt
  exact stats_level8 c y r gt.1 gt.2 acc2

lemma stats_level6 (c y r : String) :
    ∀ (gds : List StatsGameDict) (acc : List (List String)),
      gds.foldl (fun acc gd =>
        gd.foldl (fun acc gt =>
          gt.2.foldl (fun acc t => acc ++ [statsRow c y r gt.1 t.2]) acc) acc) acc
      = acc ++ (gds.flatMap fun gd => gd.flatMap fun gt => gt.2.map fun t =>
          (c, y, r, gt.1, t.1, t.2)).flatMap (fun t => [statsRowOfLeaf t]) := by
  intro gds acc
  apply foldl_nested
  intro acc2 gd
  exact stats_level7 c y r gd acc2

lemma stats_level5 (c y : String) :
    ∀ (rd : StatsRoundDict) (acc : List (List String)),
      rd.foldl (fun acc rg =>
        rg.2.foldl (fun acc gd =>
          gd.foldl (fun acc gt =>
            gt.2.foldl (fun acc t => acc ++ [statsRow c y rg.1 gt.1 t.2]) acc) acc) acc) acc
      = acc ++ (rd.flatMap fun rg => rg.2.flatMap fun gd => gd.flatMap fun gt =>
          gt.2.map fun t => (c, y, rg.1, gt.1, t.1, t.2)).flatMap
          (fun t => [statsRowOfLeaf t]) := by
  intro rd acc
  apply foldl_nested
  intro acc2 rg
  exact stats_level6 c y rg.1 rg.2 acc2

lemma stats_level4 (c y : String) :
    ∀ (rds : List StatsRoundDict) (acc : List (List String)),
      rds.foldl (fun acc rd =>
        rd.foldl (fun acc rg =>
          rg.2.foldl (fun acc gd =>
            gd.foldl (fun acc gt =>
              gt.2.foldl (fun acc t => acc ++ [statsRow c y rg.1 gt.1 t.2]) acc) acc) acc) acc) acc
      = acc ++ (rds.flatMap fun rd => rd.flatMap fun rg => rg.2.flatMap fun gd =>
          gd.flatMap fun gt => gt.2.map fun t => (c, y, rg.1, gt.1, t.1, t.2)).flatMap
          (fun t => [statsRowOfLeaf t]) := by
  intro rds acc
  apply foldl_nested
  intro acc2 rd
  exact stats_level5 c y rd acc2

lemma stats_level3 (c : String) :
    ∀ (yd : StatsYearDict) (acc : List (List String)),
      yd.foldl (fun acc yr =>
        yr.2.foldl (fun acc rd =>
          rd.foldl (fun acc rg =>
            rg.2.foldl (fun acc gd =>
              gd.foldl (fun acc gt =>
                gt.2.foldl (fun acc t =>
                  acc ++ [statsRow c yr.1 rg.1 gt.1 t.2]) acc) acc) acc) acc) acc) acc
      = acc ++ (yd.flatMap fun yr => yr.2.flatMap fun rd => rd.flatMap fun rg =>
          rg.2.flatMap fun gd => gd.flatMap fun gt => gt.2.map fun t =>
            (c, yr.1, rg.1, gt.1, t.1, t.2)).flatMap (fun t => [statsRowOfLeaf t]) := by
  intro yd acc
  apply foldl_nested
  intro acc2 yr
  exact stats_level4 c yr.1 yr.2 acc2

lemma stats_level2 (c : String) :
    ∀ (yds : List StatsYearDict) (acc : List (List String)),
      yds.foldl (fun acc yd =>
        yd.foldl (fun acc yr =>
          yr.2.foldl (fun acc rd =>
            rd.foldl (fun acc rg =>
              rg.2.foldl (fun acc gd =>
                gd.foldl (fun acc gt =>
                  gt.2.foldl (fun acc t =>
                    acc ++ [statsRow c yr.1 rg.1 gt.1 t.2]) acc) acc) acc) acc) acc) acc) acc
      = acc ++ (yds.flatMap fun yd => yd.flatMap fun yr => yr.2.flatMap fun rd =>
          rd.flatMap fun rg => rg.2.flatMap fun gd => gd.flatMap fun gt =>
            gt.2.map fun t => (c, yr.1, rg.1, gt.1, t.1, t.2)).flatMap
          (fun t => [statsRowOfLeaf t]) := by
  intro yds acc
  apply foldl_nested
  intro acc2 yd
  exact stats_level3 c yd acc2

lemma stats_level1 :
    ∀ (master : MasterStats) (acc : List (List String)),
      master.foldl (fun acc cy =>
        cy.2.foldl (fun acc yd =>
          yd.foldl (fun acc yr =>
            yr.2.foldl (fun acc rd =>
              rd.foldl (fun acc rg =>
                rg.2.foldl (fun acc gd =>
                  gd.foldl (fun acc gt =>
                    gt.2.foldl (fun acc t =>
                      acc ++ [statsRow cy.1 yr.1 rg.1 gt.1 t.2]) acc) acc) acc) acc) acc) acc) acc) acc
      = acc ++ (statsLeaves master).flatMap (fun t => [statsRowOfLeaf t]) := by
  intro master acc
  apply foldl_nested
  intro acc2 cy
  exact stats_level2 cy.1 cy.2 acc2

/-- The statistics flattener is the per-leaf row builder mapped over the
leaves in traversal order. -/
lemma statsFlatten_char (master : MasterStats) :
    statsFlatten master = (statsLeaves master).map statsRowOfLeaf := by
  unfold statsFlatten
  rw [stats_level1 master [], flatMap_singleton]
  rfl

/-- The metadata leaves with their ancestor keys, in traversal order. -/
def matchLeaves (master : MasterMatch) :
    List (String × String × String × String × Record) :=
  master.flatMap fun cy => cy.2.flatMap fun yd => yd.flatMap fun yr =>
    yr.2.flatMap fun rd => rd.flatMap fun rg => rg.2.flatMap fun gd =>
      gd.map fun g => (cy.1, yr.1, rg.1, g.1, g.2)

/-- The row one metadata leaf contributes. -/
def matchRowOfLeaf (t : String × String × String × String × Record) : List String :=
  matchRow t.1 t.2.1 t.2.2.1 t.2.2.2.1 t.2.2.2.2

lemma match_level7 (c y r : String) :
    ∀ (gd : MatchGameDict) (acc : List (List String)),
      gd.foldl (fun acc g => acc ++ [matchRow c y r g.1 g.2]) acc
      = acc ++ (gd.map fun g => (c, y, r, g.1, g.2)).flatMap
          (fun t => [matchRowOfLeaf t]) := by
  intro gd acc
  rw [List.flatMap_map]
  apply foldl_extend
  intro acc2 g
  rfl

lemma match_level6 (c y r : String) :
    ∀ (gds : List MatchGameDict) (acc : List (List String)),
      gds.foldl (fun acc gd =>
        gd.foldl (fun acc g => acc ++ [matchRow c y r g.1 g.2]) acc) acc
      = acc ++ (gds.flatMap fun gd => gd.map fun g =>
          (c, y, r, g.1, g.2)).flatMap (fun t => [matchRowOfLeaf t]) := by
  intro gds acc
  apply foldl_nested
  intro acc2 gd
  exact match_level7 c y r gd acc2

lemma match_level5 (c y : String) :
    ∀ (rd : MatchRoundDict) (acc : List (List String)),
      rd.foldl (fun acc rg =>
        rg.2.foldl (fun acc gd =>
          gd.foldl (fun acc g => acc ++ [matchRow c y rg.1 g.1 g.2]) acc) acc) acc
      = acc ++ (rd.flatMap fun rg => rg.2.flatMap fun gd => gd.map fun g =>
          (c, y, rg.1, g.1, g.2)).flatMap (fun t => [matchRowOfLeaf t]) := by
  intro rd acc
  apply foldl_nested
  intro acc2 rg
  exact match_level6 c y rg.1 rg.2 acc2

lemma match_level4 (c y : String) :
    ∀ (rds : List MatchRoundDict) (acc : List (List String)),
      rds.foldl (fun acc rd =>
        rd.foldl (fun acc rg =>
          rg.2.foldl (fun acc gd =>
            gd.foldl (fun acc g => acc ++ [matchRow c y rg.1 g.1 g.2]) acc) acc) acc) acc
      = acc ++ (rds.flatMap fun rd => rd.flatMap fun rg => rg.2.flatMap fun gd =>
          gd.map fun g => (c, y, rg.1, g.1, g.2)).flatMap
          (fun t => [matchRowOfLeaf t]) := by
  intro rds acc
  apply foldl_nested
  intro acc2 rd
  exact match_level5 c y rd acc2

lemma match_level3 (c : String) :
    ∀ (yd : MatchYearDict) (acc : List (List String)),
      yd.foldl (fun acc yr =>
        yr.2.foldl (fun acc rd =>
          rd.foldl (fun acc rg =>
            rg.2.foldl (fun acc gd =>
              gd.foldl (fun acc g =>
                acc ++ [matchRow c yr.1 rg.1 g.1 g.2]) acc) acc) acc) acc) acc
      = acc ++ (yd.flatMap fun yr => yr.2.flatMap fun rd => rd.flatMap fun rg =>
          rg.2.flatMap fun gd => gd.map fun g => (c, yr.1, rg.1, g.1, g.2)).flatMap
          (fun t => [matchRowOfLeaf t]) := by
  intro yd acc
  apply foldl_nested
  intro acc2 yr
  exact match_level4 c yr.1 yr.2 acc2

lemma match_level2 (c : String) :
    ∀ (yds : List MatchYearDict) (acc : List (List String)),
      yds.foldl (fun acc yd =>
        yd.foldl (fun acc yr =>
          yr.2.foldl (fun acc rd =>
            rd.foldl (fun acc rg =>
              rg.2.foldl (fun acc gd =>
                gd.foldl (fun acc g =>
                  acc ++ [matchRow c yr.1 rg.1 g.1 g.2]) acc) acc) acc) acc) acc) acc
      = acc ++ (yds.flatMap fun yd => yd.flatMap fun yr => yr.2.flatMap fun rd =>
          rd.flatMap fun rg => rg.2.flatMap fun gd => gd.map fun g =>
            (c, yr.1, rg.1, g.1, g.2)).flatMap (fun t => [matchRowOfLeaf t]) := by
  intro yds acc
  apply foldl_nested
  intro acc2 yd
  exact match_level3 c yd acc2

lemma match_level1 :
    ∀ (master : MasterMatch) (acc : List (List String)),
      master.foldl (fun acc cy =>
        cy.2.foldl (fun acc yd =>
          yd.foldl (fun acc yr =>
            yr.2.foldl (fun acc rd =>
              rd.foldl (fun acc rg =>
                rg.2.foldl (fun acc gd =>
                  gd.foldl (fun acc g =>
                    acc ++ [matchRow cy.1 yr.1 rg.1 g.1 g.2]) acc) acc) acc) acc) acc) acc) acc
      = acc ++ (matchLeaves master).flatMap (fun t => [matchRowOfLeaf t]) := by
  intro master acc
  apply foldl_nested
  intro acc2 cy
  exact match_level2 cy.1 cy.2 acc2

/-- The metadata flattener is the per-leaf row builder mapped over the leaves
in traversal order. -/
lemma matchFlatten_char (master : MasterMatch) :
    matchFlatten master = (matchLeaves master).map matchRowOfLeaf := by
  unfold matchFlatten
  rw [match_level1 master [], flatMap_singleton]
  rfl

/-! ## Claim theorems about the flatteners -/

/-- A match record with every declared column except `Venue`. -/
def recNoVenue : Record :=
  [("Details", "Round 1"), ("Date", "Thu 07:50pm"), ("Home", "Eels"),
   ("Home_Score", "10"), ("Away", "Storm"), ("Away_Score", "12")]

/-- C3 (counterexample): the basic flattener does not substitute an empty
string for a missing `Venue` — `match['Venue']` raises a `KeyError`
(modelled as `none`) and the whole conversion aborts. -/
theorem convert_json_to_table_missing_venue_fails :
    convert_json_to_table [("NRL", [[("2023", [[("1", [recNoVenue])]])]])] = none := by
  decide

/-- C3 (amended): the three detailed flatteners use `.get` with a default, so
a leaf record with every field missing still yields a complete row of empty
strings (statistics, metadata) or simply no fan-out rows (try scorers); only
the basic flattener raises on a missing field. -/
theorem detailed_flatteners_missing_field_empty (c y r g team : String) :
    statsFlatten [(c, [[(y, [[(r, [[(g, [(team, [])])]])]])]])]
      = [[c, y, r, g, ""] ++ (stats_data_headers.drop 5).map fun _ => ""] ∧
    matchFlatten [(c, [[(y, [[(r, [[(g, [])]])]])]])]
      = [[c, y, r, g] ++ (match_data_headers.drop 4).map fun _ => ""] ∧
    tryFlatten [(c, [[(y, [[(r, [[(g, [(team, [])])]])]])]])] = [] :=
  ⟨rfl, rfl, rfl⟩

/-- C10: on a team whose `try_names` and `try_minutes` lists may differ in
length, the fan-out emits exactly one row per `zip` pair — `min` of the two
lengths, pairing positionally, surplus silently dropped — and every minute
value has all apostrophes (code point 39) removed. -/
theorem try_fanout_zip_truncation (c y r g team : String) (names minutes : List String) :
    tryFlatten [(c, [[(y, [[(r, [[(g, [(team,
        [("try_names", names), ("try_minutes", minutes)])])]])]])]])]
      = (names.zip minutes).map (fun nm => [c, y, r, g, team, nm.1, stripApos nm.2]) ∧
    (tryFlatten [(c, [[(y, [[(r, [[(g, [(team,
        [("try_names", names), ("try_minutes", minutes)])])]])]])]])]).length
      = min names.length minutes.length ∧
    ∀ s : String, (stripApos s).data.all (fun ch => ch.toNat ≠ 39) = true := by
  have hchar : tryFlatten [(c, [[(y, [[(r, [[(g, [(team,
        [("try_names", names), ("try_minutes", minutes)])])]])]])]])]
      = (names.zip minutes).map (fun nm => [c, y, r, g, team, nm.1, stripApos nm.2]) := by
    rw [tryFlatten_char]
    show tryRowsOfLeaf (c, y, r, g, team,
      [("try_names", names), ("try_minutes", minutes)]) ++ [] = _
    rw [List.append_nil]
    show (names.zip minutes).map (tryRow c y r g team) = _
    apply List.map_congr_left
    intro nm _
    rfl
  refine ⟨hchar, ?_, ?_⟩
  · rw [hchar, List.length_map, List.length_zip]
  · intro s
    rw [List.all_eq_true]
    intro ch hch
    have hch2 : ch ∈ s.data.filter (fun c => c.toNat ≠ 39) := hch
    simpa using List.of_mem_filter hch2

/-- C5: when the basic conversion succeeds, it pairs the leaf match records
with the emitted rows one to one, positionally, in source traversal order
(competition, then year, then round, then match as encountered — the i-th
row is built from the i-th leaf), so the row count equals the leaf count and
the ancestor cells list the traversal-order keys; and the try fan-out equals
the per-leaf zip expansion concatenated in traversal order, whose length,
under the equal-length precondition, is the sum of the per-leaf list
lengths. -/
theorem flattener_completeness_order
    (j : BasicJson) (rows : List (List String))
    (hj : convert_json_to_table j = some rows)
    (master : MasterTry)
    (hm : ∀ t ∈ tryLeaves master,
      (pyGetD (tryRec t) "try_names" []).length
        = (pyGetD (tryRec t) "try_minutes" []).length) :
    List.Forall₂ (fun t row => buildBasicRow t.1 t.2.1 t.2.2.1 t.2.2.2 = some row)
      (leavesBasic j) rows ∧
    rows.length = countLeavesBasic j ∧
    rows.map (fun row => row.take 3)
      = (leavesBasic j).map (fun t => [t.1, t.2.1, t.2.2.1]) ∧
    tryFlatten master = (tryLeaves master).flatMap tryRowsOfLeaf ∧
    (tryFlatten master).length
      = ((tryLeaves master).map fun t => (pyGetD (tryRec t) "try_names" []).length).sum := by
  rw [convert_char] at hj
  refine ⟨mapMO_forall₂ _ hj,
    (mapMO_length _ hj).trans (leavesBasic_length j),
    mapMO_map _ _ _ (fun t row h => buildBasicRow_take3 h) hj,
    tryFlatten_char master, ?_⟩
  rw [tryFlatten_char, List.length_flatMap]
  congr 1
  apply List.map_congr_left
  intro t ht
  simp only [Function.comp_apply, tryRowsOfLeaf, List.length_map, List.length_zip,
    ← hm t ht]
  exact min_self _

/-- A one-match nested input with every declared field present. -/
def jEx : BasicJson :=
  [("NRL", [[("2024", [[("1",
    [[("Details", "Round 1"), ("Date", "Thu"), ("Home", "Eels"), ("Home_Score", "10"),
      ("Away", "Storm"), ("Away_Score", "12"), ("Venue", "CommBank Stadium")]])]])]])]

/-- The one row `jEx` flattens to. -/
def rowsEx : List (List String) :=
  [["NRL", "2024", "1", "Round 1", "Thu", "Eels", "10", "Storm", "12", "CommBank Stadium"]]

/-- A one-team try master with equal-length scorer lists. -/
def mExTry : MasterTry :=
  [("NRL", [[("2024", [[("1", [[("Eels.v.Storm",
    [("Eels", [("try_names", ["A B"]), ("try_minutes", ["12"])])])]])]])]])]

/-- C5 witness: the completeness statement evaluated on a concrete one-match
input and a concrete one-team try master. -/
theorem flattener_completeness_order_witness :
    List.Forall₂ (fun t row => buildBasicRow t.1 t.2.1 t.2.2.1 t.2.2.2 = some row)
      (leavesBasic jEx) rowsEx ∧
    rowsEx.length = countLeavesBasic jEx ∧
    rowsEx.map (fun row => row.take 3)
      = (leavesBasic jEx).map (fun t => [t.1, t.2.1, t.2.2.1]) ∧
    tryFlatten mExTry = (tryLeaves mExTry).flatMap tryRowsOfLeaf ∧
    (tryFlatten mExTry).length
      = ((tryLeaves mExTry).map fun t => (pyGetD (tryRec t) "try_names" []).length).sum :=
  flattener_completeness_order jEx rowsEx (by decide) mExTry (by decide)

/-- C6: every emitted row of every table consists of the ancestor keys first
and then the leaf fields in the schema's declared order, and has exactly as
many cells as the schema has columns.  For the basic table each row is
`[Competition, Year, Round]` followed by the `basic_headers.drop 3` lookups
of its own leaf record (Venue cleaned in place); for statistics each row is
`[Competition, Year, Round, Game]`, the `home/away` field, then the
`stats_data_headers.drop 5` lookups; for metadata `[Competition, Year,
Round, Game]` then the `match_data_headers.drop 4` lookups; for try scorers
`[Competition, Year, Round, Game, team, name, minute]`.  Hence all rows of
one table agree in column count and order — 10, 45, 10 and 7 cells. -/
theorem flattener_column_invariant
    (j : BasicJson) (rows : List (List String))
    (hj : convert_json_to_table j = some rows) :
    (∀ row ∈ rows, row.length = basic_headers.length) ∧
    List.Forall₂ (fun t row => ∃ v fields,
      lookup? t.2.2.2 "Venue" = some v ∧
      mapMO (fun hd => lookup? (setKey t.2.2.2 "Venue" (clean_text v)) hd)
        (basic_headers.drop 3) = some fields ∧
      row = [t.1, t.2.1, t.2.2.1] ++ fields) (leavesBasic j) rows ∧
    rows.map (fun row => row.take 3)
      = (leavesBasic j).map (fun t => [t.1, t.2.1, t.2.2.1]) ∧
    (∀ m : MasterStats, statsFlatten m = (statsLeaves m).map fun t =>
      [t.1, t.2.1, t.2.2.1, t.2.2.2.1] ++ [pyGetD t.2.2.2.2.2 "home/away" ""] ++
        (stats_data_headers.drop 5).map fun h => pyGetD t.2.2.2.2.2 (headerKey h) "") ∧
    (∀ (m : MasterStats), ∀ row ∈ statsFlatten m, row.length = stats_data_headers.length) ∧
    (∀ m : MasterMatch, matchFlatten m = (matchLeaves m).map fun t =>
      [t.1, t.2.1, t.2.2.1, t.2.2.2.1] ++
        (match_data_headers.drop 4).map fun h => pyGetD t.2.2.2.2 (headerKey h) "") ∧
    (∀ (m : MasterMatch), ∀ row ∈ matchFlatten m, row.length = match_data_headers.length) ∧
    (∀ m : MasterTry, tryFlatten m = (tryLeaves m).flatMap fun t =>
      ((pyGetD (tryRec t) "try_names" []).zip (pyGetD (tryRec t) "try_minutes" [])).map
        fun nm => [t.1, t.2.1, t.2.2.1, t.2.2.2.1, t.2.2.2.2.1, nm.1, stripApos nm.2]) ∧
    (∀ (m : MasterTry), ∀ row ∈ tryFlatten m, row.length = try_data_headers.length) := by
  rw [convert_char] at hj
  refine ⟨?_, (mapMO_forall₂ _ hj).imp (fun t row h => buildBasicRow_shape h),
    mapMO_map _ _ _ (fun t row h => buildBasicRow_take3 h) hj,
    fun m => statsFlatten_char m, statsFlatten_row_length,
    fun m => matchFlatten_char m, matchFlatten_row_length,
    fun m => tryFlatten_char m, tryFlatten_row_length⟩
  intro row hrow
  rcases mapMO_mem _ hj row hrow with ⟨t, _, ht⟩
  exact buildBasicRow_length ht

/-- C6 witness: the column invariant evaluated on the concrete one-match
input. -/
theorem flattener_column_invariant_witness :
    (∀ row ∈ rowsEx, row.length = basic_headers.length) ∧
    List.Forall₂ (fun t row => ∃ v fields,
      lookup? t.2.2.2 "Venue" = some v ∧
      mapMO (fun hd => lookup? (setKey t.2.2.2 "Venue" (clean_text v)) hd)
        (basic_headers.drop 3) = some fields ∧
      row = [t.1, t.2.1, t.2.2.1] ++ fields) (leavesBasic jEx) rowsEx ∧
    rowsEx.map (fun row => row.take 3)
      = (leavesBasic jEx).map (fun t => [t.1, t.2.1, t.2.2.1]) ∧
    (∀ m : MasterStats, statsFlatten m = (statsLeaves m).map fun t =>
      [t.1, t.2.1, t.2.2.1, t.2.2.2.1] ++ [pyGetD t.2.2.2.2.2 "home/away" ""] ++
        (stats_data_headers.drop 5).map fun h => pyGetD t.2.2.2.2.2 (headerKey h) "") ∧
    (∀ (m : MasterStats), ∀ row ∈ statsFlatten m, row.length = stats_data_headers.length) ∧
    (∀ m : MasterMatch, matchFlatten m = (matchLeaves m).map fun t =>
      [t.1, t.2.1, t.2.2.1, t.2.2.2.1] ++
        (match_data_headers.drop 4).map fun h => pyGetD t.2.2.2.2 (headerKey h) "") ∧
    (∀ (m : MasterMatch), ∀ row ∈ matchFlatten m, row.length = match_data_headers.length) ∧
    (∀ m : MasterTry, tryFlatten m = (tryLeaves m).flatMap fun t =>
      ((pyGetD (tryRec t) "try_names" []).zip (pyGetD (tryRec t) "try_minutes" [])).map
        fun nm => [t.1, t.2.1, t.2.2.1, t.2.2.2.1, t.2.2.2.2.1, nm.1, stripApos nm.2]) ∧
    (∀ (m : MasterTry), ∀ row ∈ tryFlatten m, row.length = try_data_headers.length) :=
  flattener_column_invariant jEx rowsEx (by decide)

end NRLML
